import Mathlib

/-!
Shallow embedding of `src/lint-gofmt.py`: a 27-line helper script that
expands two glob patterns, runs `gofmt -s -l` on every matching `*.go`
file, prints the tool's diagnostic output for non-conforming files, and
exits 1 when any file violates formatting (or the tool invocation fails),
0 otherwise.

The environment of a run is captured by `Env`: the result of each glob
expansion (`globResults`) and the behaviour of the external check command
on each file (`check`, either captured stdout or an abnormal termination
raising `subprocess.CalledProcessError`).  The run itself is the pure
function `run`, which also records a trace of every external action the
script performs (glob reads, subprocess invocations, prints, the final
exit).

A command that fails to execute at all raises `OSError`, which the
script's `except subprocess.CalledProcessError` does not catch: the
interpreter aborts the loop mid-run.  The extended model (`ExtCheckResult`,
`ExtEnv`, `extLoop`, `extRun`) covers that path; the base model covers the
runs free of it.
-/

namespace LintGofmt

/-- Behaviour of one `subprocess.check_output(['gofmt', '-s', '-l', filename])`
call in the base model: `ok out` means the command ran to completion with
captured stdout `out`; `err` means it raised
`subprocess.CalledProcessError` (the command executed and exited non-zero)
— the one exception line 19's `except` clause catches.  A command that
cannot be executed at all raises `OSError` instead, which the script does
not catch; that path aborts the loop and is modelled separately by
`ExtCheckResult` and `extRun` below, so the base model covers exactly the
runs free of it. -/
inductive CheckResult where
  | ok (out : String)
  | err
deriving DecidableEq, Repr

/-- External world of one run: what each glob pattern expands to, and what
the check command does on each file. -/
structure Env where
  globResults : String → List String
  check : String → CheckResult

/-- The hardcoded pattern list of line 7: `['*.go', 'cmd/dbmate/*.go']`. -/
def patterns : List String := ["*.go", "cmd/dbmate/*.go"]

/-- Python's `filename.endswith(suffix)`: the suffix's characters are a
suffix of the string's characters.  (Lean core's `String.endsWith` is not
kernel-reducible, so the model works on the underlying character lists.) -/
def endswith (f suffix : String) : Bool := suffix.data.isSuffixOf f.data

/-- Lines 5-8: `files = []; for p in patterns: files.extend(glob.glob(p))`. -/
def files (e : Env) : List String := (patterns.map e.globResults).flatten

/-- The files that survive the `filename.endswith('.go')` filter of line 13. -/
def candidateFiles (e : Env) : List String :=
  (files e).filter (fun f => endswith f ".go")

/-- One external action performed by the script.  The vocabulary includes
`fileWrite` so that read-onlyness is a falsifiable statement about the
trace, not a tautology of the trace's type. -/
inductive Effect where
  | globRead (pat : String)
  | invoke (cmd : List String)
  | printOut (s : String)
  | fileWrite (path : String)
  | exitWith (code : Nat)
deriving DecidableEq, Repr

/-- Mutable state of the loop of lines 11-20: the `exit_status` accumulator,
the chunks printed so far (each `print out,` statement appends one chunk),
and the trace of external actions so far. -/
structure LoopState where
  exitStatus : Nat
  printed : List String
  trace : List Effect
deriving DecidableEq, Repr

/-- One iteration of the `for filename in files:` loop (lines 12-20):
skip files not ending in `.go`; otherwise invoke
`gofmt -s -l filename`; on completion with non-empty output print that
output and set `exit_status = 1`; on `CalledProcessError` set
`exit_status = 1` without printing. -/
def stepFile (check : String → CheckResult) (s : LoopState) (filename : String) :
    LoopState :=
  if endswith filename ".go" then
    match check filename with
    | CheckResult.ok out =>
        if out ≠ "" then
          { exitStatus := 1,
            printed := s.printed ++ [out],
            trace := s.trace ++
              [Effect.invoke ["gofmt", "-s", "-l", filename], Effect.printOut out] }
        else
          { s with trace := s.trace ++ [Effect.invoke ["gofmt", "-s", "-l", filename]] }
    | CheckResult.err =>
        { exitStatus := 1,
          printed := s.printed,
          trace := s.trace ++ [Effect.invoke ["gofmt", "-s", "-l", filename]] }
  else s

/-- Line 23's literal remediation string. -/
def remediationMsg : String :=
  "Reformat the files listed above with \"gofmt -s -w\" and try again."

/-- Line 26's literal success string. -/
def successMsg : String := "All files pass gofmt."

/-- Observable outcome of a run: the process exit code, the sequence of
printed chunks, and the trace of external actions. -/
structure RunOutcome where
  exitCode : Nat
  printed : List String
  trace : List Effect
deriving DecidableEq, Repr

/-- Lines 22-27: if `exit_status != 0` print the remediation line and exit
with `exit_status`; otherwise print the success line and exit 0. -/
def finishRun (s : LoopState) : RunOutcome :=
  if s.exitStatus ≠ 0 then
    { exitCode := s.exitStatus,
      printed := s.printed ++ [remediationMsg],
      trace := s.trace ++ [Effect.printOut remediationMsg, Effect.exitWith s.exitStatus] }
  else
    { exitCode := 0,
      printed := s.printed ++ [successMsg],
      trace := s.trace ++ [Effect.printOut successMsg, Effect.exitWith 0] }

/-- The loop of lines 11-20 followed by the epilogue of lines 22-27, run
over an explicit list of files. -/
def runOn (check : String → CheckResult) (fs : List String) : RunOutcome :=
  finishRun (fs.foldl (stepFile check) ⟨0, [], []⟩)

/-- The whole script: glob expansion (lines 5-8, recorded as `globRead`
effects), then the check loop and epilogue. -/
def run (e : Env) : RunOutcome :=
  let r := runOn e.check (files e)
  { r with trace := patterns.map Effect.globRead ++ r.trace }

/-- A file counts as a failure for the accumulator exactly when it passes
the `.go` filter and its check either completes with non-empty output or
terminates abnormally. -/
def fileFails (check : String → CheckResult) (f : String) : Bool :=
  endswith f ".go" &&
    (match check f with
     | CheckResult.ok out => out != ""
     | CheckResult.err => true)

/-- The chunk the loop prints for a file, when any: the raw check output,
for a `.go` file whose check completes with non-empty output. -/
def fileOutput (check : String → CheckResult) (f : String) : Option String :=
  if endswith f ".go" then
    match check f with
    | CheckResult.ok out => if out ≠ "" then some out else none
    | CheckResult.err => none
  else none

/-- The external actions one loop iteration performs for a file. -/
def fileTrace (check : String → CheckResult) (f : String) : List Effect :=
  if endswith f ".go" then
    Effect.invoke ["gofmt", "-s", "-l", f] ::
      (match check f with
       | CheckResult.ok out => if out ≠ "" then [Effect.printOut out] else []
       | CheckResult.err => [])
  else []

/-- The subprocess invocations recorded in a trace, in order. -/
def invocationsOf (t : List Effect) : List (List String) :=
  t.filterMap (fun eff =>
    match eff with
    | Effect.invoke c => some c
    | _ => none)

theorem stepFile_exitStatus (check : String → CheckResult) (s : LoopState)
    (f : String) :
    (stepFile check s f).exitStatus =
      if fileFails check f then 1 else s.exitStatus := by
  unfold stepFile fileFails
  cases hgo : endswith f ".go" with
  | false => simp [hgo]
  | true =>
    cases hc : check f with
    | ok out =>
      by_cases hout : out = "" <;> simp [hgo, hc, hout]
    | err => simp [hgo, hc]

theorem stepFile_printed (check : String → CheckResult) (s : LoopState)
    (f : String) :
    (stepFile check s f).printed = s.printed ++ (fileOutput check f).toList := by
  unfold stepFile fileOutput
  cases hgo : endswith f ".go" with
  | false => simp [hgo]
  | true =>
    cases hc : check f with
    | ok out =>
      by_cases hout : out = "" <;> simp [hgo, hc, hout]
    | err => simp [hgo, hc]

theorem stepFile_trace (check : String → CheckResult) (s : LoopState)
    (f : String) :
    (stepFile check s f).trace = s.trace ++ fileTrace check f := by
  unfold stepFile fileTrace
  cases hgo : endswith f ".go" with
  | false => simp [hgo]
  | true =>
    cases hc : check f with
    | ok out =>
      by_cases hout : out = "" <;> simp [hgo, hc, hout]
    | err => simp [hgo, hc]

theorem foldl_exitStatus (check : String → CheckResult) (l : List String)
    (s : LoopState) :
    (l.foldl (stepFile check) s).exitStatus =
      if l.any (fileFails check) then 1 else s.exitStatus := by
  induction l generalizing s with
  | nil => simp
  | cons a l ih =>
    rw [List.foldl_cons, ih, stepFile_exitStatus]
    cases ha : fileFails check a <;> simp [ha]

theorem foldl_printed (check : String → CheckResult) (l : List String)
    (s : LoopState) :
    (l.foldl (stepFile check) s).printed =
      s.printed ++ l.filterMap (fileOutput check) := by
  induction l generalizing s with
  | nil => simp
  | cons a l ih =>
    rw [List.foldl_cons, ih, stepFile_printed]
    cases ha : fileOutput check a <;> simp [ha]

theorem foldl_trace (check : String → CheckResult) (l : List String)
    (s : LoopState) :
    (l.foldl (stepFile check) s).trace =
      s.trace ++ (l.map (fileTrace check)).flatten := by
  induction l generalizing s with
  | nil => simp
  | cons a l ih =>
    rw [List.foldl_cons, ih, stepFile_trace]
    simp

theorem runOn_exitCode (check : String → CheckResult) (fs : List String) :
    (runOn check fs).exitCode = if fs.any (fileFails check) then 1 else 0 := by
  unfold runOn finishRun
  rw [foldl_exitStatus]
  cases h : fs.any (fileFails check) <;> simp [h]

theorem runOn_printed (check : String → CheckResult) (fs : List String) :
    (runOn check fs).printed =
      fs.filterMap (fileOutput check) ++
        [if fs.any (fileFails check) then remediationMsg else successMsg] := by
  unfold runOn finishRun
  rw [foldl_exitStatus]
  cases h : fs.any (fileFails check) <;>
    simp [h, foldl_printed]

theorem runOn_trace (check : String → CheckResult) (fs : List String) :
    (runOn check fs).trace =
      (fs.map (fileTrace check)).flatten ++
        (if fs.any (fileFails check) then
          [Effect.printOut remediationMsg, Effect.exitWith 1]
         else [Effect.printOut successMsg, Effect.exitWith 0]) := by
  unfold runOn finishRun
  rw [foldl_exitStatus]
  cases h : fs.any (fileFails check) <;>
    simp [h, foldl_trace]

theorem run_exitCode (e : Env) :
    (run e).exitCode = if (files e).any (fileFails e.check) then 1 else 0 := by
  unfold run
  simp [runOn_exitCode]

theorem run_printed (e : Env) :
    (run e).printed =
      (files e).filterMap (fileOutput e.check) ++
        [if (files e).any (fileFails e.check) then remediationMsg else successMsg] := by
  unfold run
  simp [runOn_printed]

theorem run_trace (e : Env) :
    (run e).trace =
      patterns.map Effect.globRead ++
        ((files e).map (fileTrace e.check)).flatten ++
        (if (files e).any (fileFails e.check) then
          [Effect.printOut remediationMsg, Effect.exitWith 1]
         else [Effect.printOut successMsg, Effect.exitWith 0]) := by
  unfold run
  simp [runOn_trace]


/-- A file's check "errs": it completes with non-empty diagnostic output,
or it terminates abnormally. -/
def checkErrs (check : String → CheckResult) (f : String) : Prop :=
  (∃ out, check f = CheckResult.ok out ∧ out ≠ "") ∨ check f = CheckResult.err

theorem fileFails_iff (check : String → CheckResult) (f : String) :
    fileFails check f = true ↔ (endswith f ".go" = true ∧ checkErrs check f) := by
  unfold fileFails checkErrs
  cases hc : check f with
  | ok out =>
    by_cases hout : out = "" <;> simp [hc, hout]
  | err => simp [hc]

theorem fileOutput_some_fails (check : String → CheckResult) (f out : String)
    (h : fileOutput check f = some out) : fileFails check f = true := by
  unfold fileOutput at h
  unfold fileFails
  cases hgo : endswith f ".go" with
  | false => simp [hgo] at h
  | true =>
    cases hc : check f with
    | ok o =>
      by_cases ho : o = "" <;> simp [hgo, hc, ho] at h ⊢
    | err => simp [hgo, hc] at h

theorem fileOutput_eq_some (check : String → CheckResult) (f out : String)
    (hgo : endswith f ".go" = true) (hc : check f = CheckResult.ok out)
    (hout : out ≠ "") : fileOutput check f = some out := by
  unfold fileOutput
  simp [hgo, hc, hout]

theorem any_fileFails_iff (e : Env) :
    (files e).any (fileFails e.check) = true ↔
      ∃ f ∈ candidateFiles e, checkErrs e.check f := by
  rw [List.any_eq_true]
  constructor
  · rintro ⟨f, hf, hfail⟩
    rw [fileFails_iff] at hfail
    exact ⟨f, List.mem_filter.mpr ⟨hf, hfail.1⟩, hfail.2⟩
  · rintro ⟨f, hf, herr⟩
    have hm := List.mem_filter.mp hf
    exact ⟨f, hm.1, (fileFails_iff _ _).mpr ⟨hm.2, herr⟩⟩

theorem invocationsOf_append (t₁ t₂ : List Effect) :
    invocationsOf (t₁ ++ t₂) = invocationsOf t₁ ++ invocationsOf t₂ :=
  List.filterMap_append ..

theorem invocationsOf_fileTrace (check : String → CheckResult) (f : String) :
    invocationsOf (fileTrace check f) =
      if endswith f ".go" then [["gofmt", "-s", "-l", f]] else [] := by
  unfold fileTrace invocationsOf
  cases hgo : endswith f ".go" with
  | false => simp [hgo]
  | true =>
    cases hc : check f with
    | ok out =>
      by_cases hout : out = "" <;> simp [hgo, hc, hout]
    | err => simp [hgo, hc]

theorem invocationsOf_flatten (check : String → CheckResult) (l : List String) :
    invocationsOf ((l.map (fileTrace check)).flatten) =
      (l.filter (fun f => endswith f ".go")).map
        (fun f => ["gofmt", "-s", "-l", f]) := by
  induction l with
  | nil => rfl
  | cons a l ih =>
    rw [List.map_cons, List.flatten_cons, invocationsOf_append, ih,
      List.filter_cons, invocationsOf_fileTrace]
    cases hgo : endswith a ".go" <;> simp [hgo]

theorem invocations_runOn (check : String → CheckResult) (fs : List String) :
    invocationsOf (runOn check fs).trace =
      (fs.filter (fun f => endswith f ".go")).map
        (fun f => ["gofmt", "-s", "-l", f]) := by
  rw [runOn_trace, invocationsOf_append, invocationsOf_flatten]
  cases h : fs.any (fileFails check) <;> simp [h, invocationsOf]

theorem invocations_run (e : Env) :
    invocationsOf (run e).trace =
      (candidateFiles e).map (fun f => ["gofmt", "-s", "-l", f]) := by
  unfold run candidateFiles
  simp only [invocationsOf_append]
  rw [invocations_runOn]
  have hglob : invocationsOf (patterns.map Effect.globRead) = [] := rfl
  simp [hglob]

theorem stepFile_skip (check : String → CheckResult) (s : LoopState)
    (f : String) (h : endswith f ".go" = false) : stepFile check s f = s := by
  unfold stepFile
  rw [h]
  rfl

/-- The glob pattern an effect reads, when it is a glob read. -/
def globReadPat : Effect → Option String
  | Effect.globRead p => some p
  | _ => none

theorem fileWrite_not_mem_fileTrace (check : String → CheckResult)
    (f p : String) : Effect.fileWrite p ∉ fileTrace check f := by
  unfold fileTrace
  cases hgo : endswith f ".go" with
  | false => simp [hgo]
  | true =>
    cases hc : check f with
    | ok out =>
      by_cases hout : out = "" <;> simp [hgo, hc, hout]
    | err => simp [hgo, hc]

theorem globReads_fileTrace (check : String → CheckResult) (f : String) :
    (fileTrace check f).filterMap globReadPat = [] := by
  unfold fileTrace
  cases hgo : endswith f ".go" with
  | false => simp [hgo]
  | true =>
    cases hc : check f with
    | ok out =>
      by_cases hout : out = "" <;> simp [hgo, hc, hout, globReadPat]
    | err => simp [hgo, hc, globReadPat]

theorem globReads_flatten (check : String → CheckResult) (l : List String) :
    ((l.map (fileTrace check)).flatten).filterMap globReadPat = [] := by
  induction l with
  | nil => rfl
  | cons a l ih =>
    rw [List.map_cons, List.flatten_cons, List.filterMap_append,
      globReads_fileTrace, ih]
    rfl

/-! ### Concrete environments used by the witnesses -/

/-- No pattern matches any file. -/
def envEmpty : Env where
  globResults := fun _ => []
  check := fun _ => CheckResult.ok ""

/-- One candidate file on which the check command terminates abnormally. -/
def envErr : Env where
  globResults := fun p => if p = "*.go" then ["broken.go"] else []
  check := fun _ => CheckResult.err

/-- Two candidate files: one formatting violation, one invocation failure. -/
def envTwo : Env where
  globResults := fun p => if p = "*.go" then ["alpha.go", "beta.go"] else []
  check := fun f => if f = "alpha.go" then CheckResult.ok "alpha.go\n" else CheckResult.err

/-! ### The claims -/

/-- C1: the process exit code is nonzero if and only if at least one
candidate file either produced non-empty diagnostic output from the check
command or caused the check command to terminate abnormally; otherwise the
exit code is 0. -/
theorem exitCode_nonzero_iff (e : Env) :
    (run e).exitCode ≠ 0 ↔ ∃ f ∈ candidateFiles e, checkErrs e.check f := by
  rw [run_exitCode, ← any_fileFails_iff]
  cases h : (files e).any (fileFails e.check) <;> simp [h]

/-- C2: whenever some candidate file's check produces non-empty output, the
run fails with a nonzero exit code, that output appears verbatim in the
printed report, and the report is the concatenation of all non-empty
per-file diagnostic outputs followed by the literal remediation string; on
success the literal confirmation string is printed instead. -/
theorem failing_run_report (e : Env) :
    (∀ f out, f ∈ candidateFiles e → e.check f = CheckResult.ok out → out ≠ "" →
      (run e).exitCode ≠ 0 ∧ out ∈ (run e).printed ∧
        (run e).printed =
          (files e).filterMap (fileOutput e.check) ++ [remediationMsg]) ∧
    ((run e).exitCode = 0 → (run e).printed = [successMsg]) := by
  constructor
  · intro f out hf hc hout
    have hm := List.mem_filter.mp hf
    have hany : (files e).any (fileFails e.check) = true :=
      List.any_eq_true.mpr
        ⟨f, hm.1, (fileFails_iff _ _).mpr ⟨hm.2, Or.inl ⟨out, hc, hout⟩⟩⟩
    refine ⟨by simp [run_exitCode, hany], ?_, by simp [run_printed, hany]⟩
    rw [run_printed]
    simp only [hany, if_pos]
    exact List.mem_append_left _
      (List.mem_filterMap.mpr ⟨f, hm.1, fileOutput_eq_some _ _ _ hm.2 hc hout⟩)
  · intro h0
    rw [run_exitCode] at h0
    have hany : (files e).any (fileFails e.check) = false := by
      cases h : (files e).any (fileFails e.check)
      · rfl
      · rw [h] at h0; simp at h0
    have hnil : (files e).filterMap (fileOutput e.check) = [] := by
      rw [List.filterMap_eq_nil_iff]
      intro f hf
      cases ho : fileOutput e.check f with
      | none => rfl
      | some o =>
        exfalso
        have hfail := List.any_eq_true.mpr ⟨f, hf, fileOutput_some_fails _ _ _ ho⟩
        rw [hany] at hfail
        exact Bool.false_ne_true hfail
    simp [run_printed, hany, hnil]

/-! ### Extended model: a check command that fails to execute

`subprocess.check_output` raises `OSError` when the command cannot be
executed at all (e.g. `gofmt` is not installed).  Line 19's
`except subprocess.CalledProcessError` does not catch `OSError`, so the
exception propagates: the interpreter prints a traceback to stderr and
aborts the script mid-loop — the remaining files are never checked and
neither of the script's terminal messages is printed.  The extended model
distinguishes the two failure modes and mirrors the abort. -/

/-- Behaviour of one check invocation in the extended model:
`ok`/`calledProcessError` are the two outcomes line 14-19's `try` block
handles; `osError` is a command that fails to execute, whose exception the
script does not catch. -/
inductive ExtCheckResult where
  | ok (out : String)
  | calledProcessError
  | osError
deriving DecidableEq, Repr

/-- External world of one run in the extended model. -/
structure ExtEnv where
  globResults : String → List String
  check : String → ExtCheckResult

/-- Lines 5-8 in the extended model. -/
def extFiles (e : ExtEnv) : List String := (patterns.map e.globResults).flatten

/-- The files that survive the `.go` filter in the extended model. -/
def extCandidateFiles (e : ExtEnv) : List String :=
  (extFiles e).filter (fun f => endswith f ".go")

/-- Outcome of the extended run: `done` when the script reaches lines
22-27 and terminates normally; `crash` when an uncaught `OSError` aborts
it mid-loop, carrying what had been printed and the external actions
performed up to and including the failing invocation. -/
inductive ExtOutcome where
  | done (o : RunOutcome)
  | crash (printed : List String) (trace : List Effect)
deriving DecidableEq, Repr

/-- The loop of lines 11-20 in the extended model: identical to `stepFile`
on the two caught outcomes, but an `osError` invocation aborts the run at
that file — the rest of the list is never examined. -/
def extLoop (check : String → ExtCheckResult) : LoopState → List String → ExtOutcome
  | s, [] => ExtOutcome.done (finishRun s)
  | s, f :: fs =>
    if endswith f ".go" then
      match check f with
      | ExtCheckResult.ok out =>
          if out ≠ "" then
            extLoop check
              { exitStatus := 1, printed := s.printed ++ [out],
                trace := s.trace ++
                  [Effect.invoke ["gofmt", "-s", "-l", f], Effect.printOut out] } fs
          else
            extLoop check
              { s with trace := s.trace ++ [Effect.invoke ["gofmt", "-s", "-l", f]] } fs
      | ExtCheckResult.calledProcessError =>
          extLoop check
            { exitStatus := 1, printed := s.printed,
              trace := s.trace ++ [Effect.invoke ["gofmt", "-s", "-l", f]] } fs
      | ExtCheckResult.osError =>
          ExtOutcome.crash s.printed
            (s.trace ++ [Effect.invoke ["gofmt", "-s", "-l", f]])
    else extLoop check s fs

/-- The whole script in the extended model. -/
def extRun (e : ExtEnv) : ExtOutcome :=
  match extLoop e.check ⟨0, [], []⟩ (extFiles e) with
  | ExtOutcome.done o =>
      ExtOutcome.done { o with trace := patterns.map Effect.globRead ++ o.trace }
  | ExtOutcome.crash p t => ExtOutcome.crash p (patterns.map Effect.globRead ++ t)

/-- The external actions an extended outcome performed. -/
def extTrace : ExtOutcome → List Effect
  | ExtOutcome.done o => o.trace
  | ExtOutcome.crash _ t => t

/-- How an extended behaviour free of `osError` reads in the base model. -/
def toCheckResult : ExtCheckResult → CheckResult
  | ExtCheckResult.ok out => CheckResult.ok out
  | _ => CheckResult.err

theorem extLoop_cons (check : String → ExtCheckResult) (s : LoopState)
    (f : String) (fs : List String)
    (h : endswith f ".go" = true → check f ≠ ExtCheckResult.osError) :
    extLoop check s (f :: fs) =
      extLoop check (stepFile (fun g => toCheckResult (check g)) s f) fs := by
  by_cases hgo : endswith f ".go" = true
  · cases hc : check f with
    | ok out =>
      by_cases hout : out = "" <;>
        simp [extLoop, stepFile, hgo, hc, hout, toCheckResult]
    | calledProcessError =>
      simp [extLoop, stepFile, hgo, hc, toCheckResult]
    | osError => exact absurd hc (h hgo)
  · simp [extLoop, stepFile, hgo]

theorem extLoop_eq_done (check : String → ExtCheckResult) (l : List String)
    (s : LoopState)
    (h : ∀ f ∈ l, endswith f ".go" = true → check f ≠ ExtCheckResult.osError) :
    extLoop check s l =
      ExtOutcome.done
        (finishRun (l.foldl (stepFile (fun g => toCheckResult (check g))) s)) := by
  induction l generalizing s with
  | nil => rfl
  | cons f fs ih =>
    rw [extLoop_cons check s f fs (h f (List.mem_cons_self f fs)),
      List.foldl_cons]
    exact ih _ (fun g hg => h g (List.mem_cons_of_mem f hg))

/-- Two candidate files whose check command fails to execute: the script
aborts while checking the first. -/
def envExec : ExtEnv where
  globResults := fun p => if p = "*.go" then ["gone.go", "later.go"] else []
  check := fun _ => ExtCheckResult.osError

/-- Two candidate files, one conforming and one whose check exits with an
error status — no failure to execute. -/
def envExtOk : ExtEnv where
  globResults := fun p => if p = "*.go" then ["good.go", "bad.go"] else []
  check := fun f =>
    if f = "bad.go" then ExtCheckResult.calledProcessError
    else ExtCheckResult.ok ""

/-- C3 counterexample: when the check command fails to execute (uncaught
`OSError`), the remaining candidate files are NOT still checked.  In
`envExec` there are two candidate files, yet the run crashes at the first:
only one invocation occurs and `later.go` is never checked — so "every
candidate file is checked exactly once per run, regardless of earlier
failures" is false of the code for this failure mode. -/
theorem crash_skips_rest :
    extCandidateFiles envExec = ["gone.go", "later.go"] ∧
    extRun envExec =
      ExtOutcome.crash []
        (patterns.map Effect.globRead ++
          [Effect.invoke ["gofmt", "-s", "-l", "gone.go"]]) ∧
    invocationsOf (extTrace (extRun envExec)) =
      [["gofmt", "-s", "-l", "gone.go"]] ∧
    ["gofmt", "-s", "-l", "later.go"] ∉
      invocationsOf (extTrace (extRun envExec)) := by
  refine ⟨by decide, by decide, by decide, by decide⟩

/-- C3 amended: a check that exits with an error status (the command runs
and fails: `CalledProcessError`) is counted as a violation and does not
abort the loop — in any run in which no check command fails to execute,
the script terminates normally, behaves as the base model, and every
candidate file is checked exactly once, regardless of earlier failures.
(A check command that fails to execute raises `OSError`, which line 19
does not catch: the script aborts there and the remaining candidates are
not checked, as `crash_skips_rest` shows.) -/
theorem checked_once_unless_exec_failure (e : ExtEnv)
    (h : ∀ f ∈ extCandidateFiles e, e.check f ≠ ExtCheckResult.osError) :
    extRun e =
      ExtOutcome.done
        (run { globResults := e.globResults,
               check := fun f => toCheckResult (e.check f) }) ∧
    invocationsOf (extTrace (extRun e)) =
      (extCandidateFiles e).map (fun f => ["gofmt", "-s", "-l", f]) := by
  have h' : ∀ f ∈ extFiles e, endswith f ".go" = true →
      e.check f ≠ ExtCheckResult.osError := fun f hf hgo =>
    h f (List.mem_filter.mpr ⟨hf, hgo⟩)
  have hdone := extLoop_eq_done e.check (extFiles e) ⟨0, [], []⟩ h'
  have hrun : extRun e =
      ExtOutcome.done
        (run { globResults := e.globResults,
               check := fun f => toCheckResult (e.check f) }) := by
    unfold extRun
    rw [hdone]
    rfl
  refine ⟨hrun, ?_⟩
  rw [hrun]
  show invocationsOf
      (run { globResults := e.globResults,
             check := fun f => toCheckResult (e.check f) }).trace = _
  rw [invocations_run]
  rfl

/-- C3 witness: in a run with a conforming file followed by a file whose
check exits with an error status, both candidates are invoked exactly
once, in order. -/
theorem checked_once_unless_exec_failure_witness :
    invocationsOf (extTrace (extRun envExtOk)) =
      [["gofmt", "-s", "-l", "good.go"], ["gofmt", "-s", "-l", "bad.go"]] := by
  have h := checked_once_unless_exec_failure envExtOk (by decide)
  rw [h.2]
  rfl

/-- C4: every per-file error — formatting violation or tool invocation
failure — contributes to the aggregate failure signal, and the failure is
surfaced via printed text: the remediation line is printed, and a
violation's diagnostic output is printed verbatim. -/
theorem error_not_swallowed (e : Env) (f : String)
    (hf : f ∈ candidateFiles e) (herr : checkErrs e.check f) :
    (run e).exitCode ≠ 0 ∧ remediationMsg ∈ (run e).printed ∧
      (∀ out, e.check f = CheckResult.ok out → out ≠ "" →
        out ∈ (run e).printed) := by
  have hm := List.mem_filter.mp hf
  have hany : (files e).any (fileFails e.check) = true :=
    List.any_eq_true.mpr ⟨f, hm.1, (fileFails_iff _ _).mpr ⟨hm.2, herr⟩⟩
  refine ⟨by simp [run_exitCode, hany], by simp [run_printed, hany], ?_⟩
  intro out hc hout
  rw [run_printed]
  simp only [hany, if_pos]
  exact List.mem_append_left _
    (List.mem_filterMap.mpr ⟨f, hm.1, fileOutput_eq_some _ _ _ hm.2 hc hout⟩)

/-- C4 witness: in the environment where the check command terminates
abnormally on the single candidate file, the run fails and the remediation
line is printed. -/
theorem error_not_swallowed_witness :
    (run envErr).exitCode ≠ 0 ∧ remediationMsg ∈ (run envErr).printed := by
  have h := error_not_swallowed envErr "broken.go" (by decide) (Or.inr rfl)
  exact ⟨h.1, h.2.1⟩

/-- C5: a matched path whose name does not end in `.go` is excluded from
checking and from the report regardless of the file's content: the run's
whole outcome is as if the path were absent from the match list, and no
check command is ever invoked on it. -/
theorem non_go_excluded (check : String → CheckResult) (l₁ l₂ : List String)
    (f : String) (h : endswith f ".go" = false) :
    runOn check (l₁ ++ f :: l₂) = runOn check (l₁ ++ l₂) ∧
      ["gofmt", "-s", "-l", f] ∉
        invocationsOf (runOn check (l₁ ++ f :: l₂)).trace := by
  constructor
  · unfold runOn
    rw [List.foldl_append, List.foldl_cons, stepFile_skip _ _ _ h,
      ← List.foldl_append]
  · rw [invocations_runOn]
    intro hmem
    rcases List.mem_map.mp hmem with ⟨g, hg, hgf⟩
    have hgf' : g = f := by simpa using hgf
    have hgo := (List.mem_filter.mp hg).2
    rw [hgf', h] at hgo
    exact Bool.false_ne_true hgo

/-- C5 witness: a single matched path `README.md` is skipped entirely, and
no `gofmt` invocation targets it. -/
theorem non_go_excluded_witness :
    runOn (fun _ => CheckResult.err) ["README.md"] =
        runOn (fun _ => CheckResult.err) [] ∧
      ["gofmt", "-s", "-l", "README.md"] ∉
        invocationsOf (runOn (fun _ => CheckResult.err) ["README.md"]).trace :=
  non_go_excluded (fun _ => CheckResult.err) [] [] "README.md" (by decide)

/-- C6: when the patterns match zero files the run succeeds: exit code 0,
the literal success message is printed, and no check command is invoked. -/
theorem no_files_success (e : Env) (h : files e = []) :
    (run e).exitCode = 0 ∧ (run e).printed = [successMsg] ∧
      invocationsOf (run e).trace = [] := by
  refine ⟨by simp [run_exitCode, h], by simp [run_printed, h], ?_⟩
  rw [invocations_run]
  unfold candidateFiles
  rw [h]
  rfl

/-- C6 witness: in the environment whose globs all expand to nothing, the
run exits 0, prints exactly the success message and invokes nothing. -/
theorem no_files_success_witness :
    (run envEmpty).exitCode = 0 ∧ (run envEmpty).printed = [successMsg] ∧
      invocationsOf (run envEmpty).trace = [] :=
  no_files_success envEmpty rfl

/-- C7: two runs against the same glob expansions and the same
check-command behaviour yield identical outcomes: same exit code, same
printed report, same trace. -/
theorem run_deterministic (e₁ e₂ : Env)
    (hg : ∀ p, e₁.globResults p = e₂.globResults p)
    (hc : ∀ f, e₁.check f = e₂.check f) :
    run e₁ = run e₂ := by
  have he : e₁ = e₂ := by
    cases e₁
    cases e₂
    simp only [Env.mk.injEq]
    exact ⟨funext hg, funext hc⟩
  rw [he]

/-- C7 witness: the determinism theorem applied to two syntactically
distinct but extensionally equal environments. -/
theorem run_deterministic_witness :
    run envTwo = run { globResults := envTwo.globResults, check := envTwo.check } :=
  run_deterministic _ _ (fun _ => rfl) (fun _ => rfl)

/-- C8: the run is read-only: no file-write action ever occurs in the
trace, every subprocess invocation is `gofmt -s -l <file>` on a single
`.go` file (list mode, never the rewriting `-w` mode), and the filesystem
is read only through the two hardcoded glob patterns. -/
theorem run_read_only (e : Env) :
    (∀ p, Effect.fileWrite p ∉ (run e).trace) ∧
    (∀ c ∈ invocationsOf (run e).trace,
        ∃ f, endswith f ".go" = true ∧ c = ["gofmt", "-s", "-l", f]) ∧
    (run e).trace.filterMap globReadPat = patterns := by
  refine ⟨?_, ?_, ?_⟩
  · intro p hp
    rw [run_trace] at hp
    simp only [List.mem_append] at hp
    rcases hp with (hp | hp) | hp
    · simp [patterns] at hp
    · rcases List.mem_flatten.mp hp with ⟨t, ht, hpt⟩
      rcases List.mem_map.mp ht with ⟨g, _, rfl⟩
      exact fileWrite_not_mem_fileTrace e.check g p hpt
    · cases hb : (files e).any (fileFails e.check) <;> simp [hb] at hp
  · intro c hc
    rw [invocations_run] at hc
    rcases List.mem_map.mp hc with ⟨g, hg, rfl⟩
    exact ⟨g, (List.mem_filter.mp hg).2, rfl⟩
  · rw [run_trace, List.filterMap_append, List.filterMap_append,
      globReads_flatten]
    have hpat : (patterns.map Effect.globRead).filterMap globReadPat = patterns := rfl
    cases hb : (files e).any (fileFails e.check) <;> simp [hb, hpat, globReadPat]

/-- C9: a failing run that terminates normally exits with code exactly 1:
the accumulator is only ever set to 1 and the process exits with it,
however many files violate formatting or fail to check. -/
theorem failing_exit_code_one (e : Env) (h : (run e).exitCode ≠ 0) :
    (run e).exitCode = 1 := by
  rw [run_exitCode] at h ⊢
  cases hb : (files e).any (fileFails e.check)
  · rw [hb] at h; simp at h
  · simp

/-- C9 witness: the run with one formatting violation and one invocation
failure fails, and its exit code is exactly 1. -/
theorem failing_exit_code_one_witness :
    (run envTwo).exitCode ≠ 0 ∧ (run envTwo).exitCode = 1 := by
  have h : (run envTwo).exitCode ≠ 0 := by decide
  exact ⟨h, failing_exit_code_one envTwo h⟩

/-- C10: exactly one of the two terminal messages ends the printed output —
the remediation line exactly when the exit code is nonzero, the success
line exactly when it is 0 — and the two messages are distinct strings, so
never both and never neither. -/
theorem terminal_message (e : Env) :
    (run e).printed.getLast? =
      some (if (run e).exitCode = 0 then successMsg else remediationMsg) ∧
      remediationMsg ≠ successMsg := by
  refine ⟨?_, by decide⟩
  rw [run_printed, run_exitCode]
  cases hb : (files e).any (fileFails e.check) <;> simp [hb]

end LintGofmt
